import Mathlib

/-!
Shallow embedding of `src/vector.py` (class `Vector`): an N-dimensional
vector value type over decimal coordinates, with arithmetic, magnitude,
normalization, angle computation, parallel/orthogonal decomposition and
the 3-D cross product.

Modelling conventions:
* Coordinate values (Python `Decimal`s) and real-valued intermediates are
  idealized as `ℝ`; the process-wide 3-significant-digit rounding context
  and binary floating point are abstracted to exact real arithmetic.
* Python exceptions are an explicit `PyErr` value; fallible operations
  return `Except PyErr _`.  `except ValueError` handlers match only the
  `valueError` constructor; `except Exception` handlers match every
  constructor, and `str(e)` is `pyStr`.
* Python float division by a `Decimal` is a `TypeError` (the two numeric
  types do not mix in arithmetic); this is modelled by the tagged type
  `PyNum` and its division `pyDiv`, used where the source mixes them.
* Tuple unpacking `x, y, z = t` raises, in Python 3, a `ValueError` whose
  message is "not enough values to unpack (expected 3, got N)" when `t`
  is too short and "too many values to unpack (expected 3)" when too
  long; `unpack3` reproduces those messages.
-/

namespace LinAlg

noncomputable section

open Classical

/-- A raised Python exception, as observed by the handlers in the source:
its class (only the classes the source distinguishes) and its message. -/
inductive PyErr where
  | valueError (msg : String)
  | typeError (msg : String)
  | exception (msg : String)
deriving DecidableEq

/-- Python `str(e)`: the message of an exception. -/
def pyStr : PyErr → String
  | .valueError m => m
  | .typeError m => m
  | .exception m => m

/-- Message constant `CANNOT_NORMALIZE_ZERO_VECTOR_MSG` from the source. -/
def CANNOT_NORMALIZE_ZERO_VECTOR_MSG : String := "Cannot normalize the zero vector"

/-- Message constant `NO_UNIQUE_ORTHOGONAL_COMPONENT_MSG` from the source. -/
def NO_UNIQUE_ORTHOGONAL_COMPONENT_MSG : String := "No unique orthogonal component exists"

/-- Message constant `NO_UNIQUE_PARALLEL_COMPONENT_MSG` from the source. -/
def NO_UNIQUE_PARALLEL_COMPONENT_MSG : String := "No unique parallel component exists"

/-- Message constant `ONLY_DEFINED_IN_THREE_DIMS_MSG` from the source. -/
def ONLY_DEFINED_IN_THREE_DIMS_MSG : String := "Cross product can only be defined in three dimensions"

/-- The `Vector` value: the fields set by `__init__` in the source
(`self.coordinates`, a tuple of decimals, and `self.dimension`). -/
structure Vector where
  coordinates : List ℝ
  dimension : ℕ

/-- An argument passed to the `Vector` constructor: the absent value
`None`, a bare scalar (not a sequence), or a sequence of
decimal-convertible values. -/
inductive CtorInput where
  | noneInput
  | scalar (n : ℤ)
  | seq (xs : List ℝ)

/-- Python truthiness of a constructor argument, as tested by
`if not coordinates`: `None` and `0` are falsy, a sequence is falsy
exactly when it is empty. -/
def truthy : CtorInput → Bool
  | .noneInput => false
  | .scalar n => n != 0
  | .seq xs => !xs.isEmpty

/-- `Vector.__init__`: `if not coordinates: raise ValueError` (re-raised
with the nonempty message); iterating a non-sequence raises `TypeError`
(re-raised with the iterable message); otherwise the coordinates are
converted to decimals (identity here) and `dimension = len(coordinates)`. -/
def Vector.init (input : CtorInput) : Except PyErr Vector :=
  if truthy input then
    match input with
    | .seq xs => .ok ⟨xs, xs.length⟩
    | _ => .error (.typeError "The coordinates must be an iterable")
  else
    .error (.valueError "The coordinates must be nonempty")

/-- `Vector.plus`: `[x+y for x,y in zip(...)]`, passed to the constructor. -/
def Vector.plus (v w : Vector) : Except PyErr Vector :=
  Vector.init (.seq (List.zipWith (fun x y => x + y) v.coordinates w.coordinates))

/-- `Vector.minus`: `[x-y for x,y in zip(...)]`, passed to the constructor. -/
def Vector.minus (v w : Vector) : Except PyErr Vector :=
  Vector.init (.seq (List.zipWith (fun x y => x - y) v.coordinates w.coordinates))

/-- `Vector.times_scalar`: every coordinate multiplied by the
decimal-converted scalar, passed to the constructor. -/
def Vector.times_scalar (v : Vector) (scalar : ℝ) : Except PyErr Vector :=
  Vector.init (.seq (v.coordinates.map (fun x => scalar * x)))

/-- `Vector.magnitude`: `sqrt(sum([x**2 for x in coordinates]))`. -/
def Vector.magnitude (v : Vector) : ℝ :=
  Real.sqrt ((v.coordinates.map (fun x => x ^ 2)).sum)

/-- `Vector.normalized`: `times_scalar(Decimal(1)/Decimal(magnitude))`;
the division raises `ZeroDivisionError` exactly when the magnitude is
zero, caught and re-raised with the cannot-normalize message. -/
def Vector.normalized (v : Vector) : Except PyErr Vector :=
  if v.magnitude = 0 then
    .error (.exception CANNOT_NORMALIZE_ZERO_VECTOR_MSG)
  else
    v.times_scalar (1 / v.magnitude)

/-- `Vector.dot`: `sum([x*y for x,y in zip(...)])`. -/
def Vector.dot (v w : Vector) : ℝ :=
  (List.zipWith (fun x y => x * y) v.coordinates w.coordinates).sum

/-- The `try` body of `Vector.angle_with`: normalize both operands,
count the coordinate pairs of the two unit vectors that compare equal
(`test_parallel` / `result` in the source), short-circuit to 0 when the
count equals `len(u1.coordinates)`, otherwise `acos(u1.dot(u2))`,
converted by `180/pi` when `in_degrees` is set. -/
def Vector.angleBody (v w : Vector) (in_degrees : Bool) : Except PyErr ℝ := do
  let u1 ← v.normalized
  let u2 ← w.normalized
  let result := (List.zip u1.coordinates u2.coordinates).countP
    (fun p => decide (p.1 = p.2))
  if result = u1.coordinates.length then
    return 0
  else
    let angle_in_radians := Real.arccos (u1.dot u2)
    if in_degrees then
      return angle_in_radians * (180 / Real.pi)
    else
      return angle_in_radians

/-- `Vector.angle_with`: the body above inside
`except Exception as e: if str(e) == CANNOT_NORMALIZE_ZERO_VECTOR_MSG`,
re-raised with the cannot-compute-an-angle message, else re-raised as is. -/
def Vector.angle_with (v w : Vector) (in_degrees : Bool) : Except PyErr ℝ :=
  match Vector.angleBody v w in_degrees with
  | .error e =>
      if pyStr e == CANNOT_NORMALIZE_ZERO_VECTOR_MSG then
        .error (.exception "Cannot compute an angle with the zero vector")
      else
        .error e
  | .ok x => .ok x

/-- `Vector.is_zero`: `magnitude() < tolerance`. -/
def Vector.is_zero (v : Vector) (tolerance : ℝ) : Prop :=
  v.magnitude < tolerance

/-- `Vector.is_parallel_to`: `is_zero() or v.is_zero() or
angle_with(v) == 0 or angle_with(v) == pi` (tolerance defaults to
`1e-10`; the `or` short-circuits, so `angle_with` is only consulted when
neither operand is zero, and then it returns a value). -/
def Vector.is_parallel_to (v w : Vector) : Prop :=
  v.is_zero (1e-10) ∨ w.is_zero (1e-10) ∨
    v.angle_with w false = .ok 0 ∨ v.angle_with w false = .ok Real.pi

/-- The `try` body of `Vector.component_parallel_to`:
`u = basis.normalized(); weight = self.dot(u); u.times_scalar(weight)`. -/
def Vector.cpBody (v basis : Vector) : Except PyErr Vector := do
  let u ← basis.normalized
  let weight := v.dot u
  u.times_scalar weight

/-- `Vector.component_parallel_to`: the body above inside
`except Exception as e`, re-raised with the no-unique-orthogonal message
when `str(e)` is the cannot-normalize message, else re-raised as is. -/
def Vector.component_parallel_to (v basis : Vector) : Except PyErr Vector :=
  match Vector.cpBody v basis with
  | .error e =>
      if pyStr e == CANNOT_NORMALIZE_ZERO_VECTOR_MSG then
        .error (.exception NO_UNIQUE_ORTHOGONAL_COMPONENT_MSG)
      else
        .error e
  | .ok u => .ok u

/-- The `try` body of `Vector.component_orthogonal_to`:
`v_parallel = self.component_parallel_to(basis); self.minus(v_parallel)`. -/
def Vector.coBody (v basis : Vector) : Except PyErr Vector := do
  let v_parallel ← v.component_parallel_to basis
  v.minus v_parallel

/-- `Vector.component_orthogonal_to`: the body above inside
`except Exception as e`, re-raised with the no-unique-orthogonal message
when `str(e)` is the no-unique-parallel message, else re-raised as is. -/
def Vector.component_orthogonal_to (v basis : Vector) : Except PyErr Vector :=
  match Vector.coBody v basis with
  | .error e =>
      if pyStr e == NO_UNIQUE_PARALLEL_COMPONENT_MSG then
        .error (.exception NO_UNIQUE_ORTHOGONAL_COMPONENT_MSG)
      else
        .error e
  | .ok u => .ok u

/-- Python 3 tuple unpacking `x, y, z = t` of a coordinate tuple:
succeeds on exactly three elements, otherwise raises `ValueError` with
the counted message "not enough values to unpack (expected 3, got N)"
(or the too-many variant). -/
def unpack3 (xs : List ℝ) : Except PyErr (ℝ × ℝ × ℝ) :=
  match xs with
  | [x, y, z] => .ok (x, y, z)
  | _ =>
    if xs.length < 3 then
      .error (.valueError
        ("not enough values to unpack (expected 3, got " ++ toString xs.length ++ ")"))
    else
      .error (.valueError "too many values to unpack (expected 3)")

/-- The `try` body of `Vector.cross_product`: unpack both coordinate
tuples into three components and construct the standard cross product. -/
def Vector.crossBody (v w : Vector) : Except PyErr Vector := do
  let (x_1, y_1, z_1) ← unpack3 v.coordinates
  let (x_2, y_2, z_2) ← unpack3 w.coordinates
  Vector.init (.seq [y_1 * z_2 - y_2 * z_1, -(x_1 * z_2 - x_2 * z_1), x_1 * y_2 - x_2 * y_1])

/-- `Vector.cross_product`: the body above inside `except ValueError as e:
if str(e) == "not enough values to unpack"` (sic: the source compares
against the bare phrase, without the "(expected 3, got N)" suffix Python
appends), raising the three-dimensions message, else re-raising `e`. -/
def Vector.cross_product (v w : Vector) : Except PyErr Vector :=
  match Vector.crossBody v w with
  | .error (.valueError msg) =>
      if msg == "not enough values to unpack" then
        .error (.exception ONLY_DEFINED_IN_THREE_DIMS_MSG)
      else
        .error (.valueError msg)
  | r => r

/-- A Python number as far as the numeric-tower rules the source hits
are concerned: a binary `float` (what `math.sqrt` returns) or a
`Decimal`.  The two do not mix in arithmetic. -/
inductive PyNum where
  | float (x : ℝ)
  | dec (x : ℝ)

/-- Python `/` on `float` and `Decimal` operands: defined within each
type, but a mixed `float / Decimal` (either order) raises `TypeError`
("unsupported operand type(s) ..."), because `Decimal` refuses implicit
interaction with binary floats. -/
def pyDiv : PyNum → PyNum → Except PyErr PyNum
  | .float a, .float b => .ok (.float (a / b))
  | .dec a, .dec b => .ok (.dec (a / b))
  | .float _, .dec _ =>
      .error (.typeError "unsupported operand type(s) for /: float and decimal.Decimal")
  | .dec _, .float _ =>
      .error (.typeError "unsupported operand type(s) for /: decimal.Decimal and float")

/-- `Vector.area_of_parallelgram`: `cross_product(v).magnitude()`
(a Python float). -/
def Vector.area_of_parallelgram (v w : Vector) : Except PyErr ℝ := do
  let c ← v.cross_product w
  return c.magnitude

/-- `Vector.area_of_triangle`:
`cross_product(v).magnitude() / Decimal("2.0")` — the left operand is
the `float` returned by `magnitude`, the right a `Decimal`. -/
def Vector.area_of_triangle (v w : Vector) : Except PyErr PyNum := do
  let c ← v.cross_product w
  pyDiv (.float c.magnitude) (.dec 2)

/-! ### Helper lemmas -/

/-- The sum of squared coordinates is nonnegative. -/
lemma sumSq_nonneg (v : Vector) : 0 ≤ (v.coordinates.map (fun x => x ^ 2)).sum :=
  List.sum_nonneg (by
    intro x hx
    obtain ⟨y, _, rfl⟩ := List.mem_map.mp hx
    positivity)

/-- The magnitude vanishes exactly when the sum of squares does. -/
lemma magnitude_eq_zero_iff (v : Vector) :
    v.magnitude = 0 ↔ (v.coordinates.map (fun x => x ^ 2)).sum = 0 := by
  unfold Vector.magnitude
  rw [Real.sqrt_eq_zero (sumSq_nonneg v)]

/-- A vector with empty coordinates has magnitude zero. -/
lemma magnitude_nil (v : Vector) (h : v.coordinates = []) : v.magnitude = 0 := by
  rw [magnitude_eq_zero_iff, h]
  simp

/-- Constructing from a nonempty sequence succeeds and records the length. -/
lemma init_seq_ok (xs : List ℝ) (h : xs ≠ []) :
    Vector.init (.seq xs) = .ok ⟨xs, xs.length⟩ := by
  unfold Vector.init truthy
  simp [h]

/-- Whatever the input, a successful construction establishes the
invariant: the dimension equals the coordinate count, and is positive. -/
lemma init_ok_invariant (input : CtorInput) (u : Vector)
    (h : Vector.init input = .ok u) :
    u.dimension = u.coordinates.length ∧ 1 ≤ u.dimension := by
  unfold Vector.init at h
  by_cases ht : truthy input = true
  · rw [if_pos ht] at h
    cases input with
    | seq xs =>
        cases h
        have hne : xs ≠ [] := by
          intro hnil
          rw [hnil] at ht
          simp [truthy] at ht
        constructor
        · rfl
        · exact List.length_pos.mpr hne
    | noneInput => exact absurd h (by simp)
    | scalar n => exact absurd h (by simp)
  · rw [if_neg ht] at h
    exact absurd h (by simp)

/-- `times_scalar` on a vector with nonempty coordinates succeeds, with
every coordinate multiplied by the scalar. -/
lemma times_scalar_ok (v : Vector) (k : ℝ) (h : v.coordinates ≠ []) :
    v.times_scalar k = .ok ⟨v.coordinates.map (fun x => k * x), v.coordinates.length⟩ := by
  unfold Vector.times_scalar
  rw [init_seq_ok _ (by simpa using h)]
  simp

/-- `normalized` on a vector of nonzero magnitude succeeds and scales by
the reciprocal of the magnitude. -/
lemma normalized_ok (v : Vector) (h : v.magnitude ≠ 0) :
    v.normalized =
      .ok ⟨v.coordinates.map (fun x => (1 / v.magnitude) * x), v.coordinates.length⟩ := by
  unfold Vector.normalized
  rw [if_neg h]
  exact times_scalar_ok v _ (fun hnil => h (magnitude_nil v hnil))

/-- `normalized` on a vector of zero magnitude raises the
cannot-normalize message. -/
lemma normalized_zero (v : Vector) (h : v.magnitude = 0) :
    v.normalized = .error (.exception CANNOT_NORMALIZE_ZERO_VECTOR_MSG) := by
  unfold Vector.normalized
  rw [if_pos h]

/-! ### C1 -/

/-- C1: evaluation at the failing input.  On two 2-D vectors the source
intends to raise the three-dimensions message, but its handler compares
the unpack error message against the bare phrase "not enough values to
unpack" while Python 3 appends "(expected 3, got 2)", so the comparison
fails and the raw `ValueError` is re-raised instead. -/
theorem cross_product_two_dim_raises_raw_valueError :
    Vector.cross_product ⟨[1, 2], 2⟩ ⟨[3, 4], 2⟩ =
      .error (.valueError "not enough values to unpack (expected 3, got 2)") := rfl

/-! ### C2 -/

/-- C2: evaluation at the failing input.  `area_of_triangle` divides the
`float` returned by `magnitude` by `Decimal("2.0")`; Python refuses the
mixed division with a `TypeError`, so the call never returns half the
parallelogram area even on 3-D operands. -/
theorem area_of_triangle_raises_typeError :
    Vector.area_of_triangle ⟨[1, 0, 0], 3⟩ ⟨[0, 1, 0], 3⟩ =
      .error (.typeError "unsupported operand type(s) for /: float and decimal.Decimal") := rfl

/-! ### C9 -/

/-- C9 counterexample: the scalar `0` is not a sequence, yet the
constructor fails with the nonempty message, not the iterable message,
because `if not coordinates` is already true for a falsy scalar. -/
theorem init_scalar_zero_gets_nonempty_message :
    Vector.init (.scalar 0) = .error (.valueError "The coordinates must be nonempty") ∧
      Vector.init (.scalar 0) ≠ .error (.typeError "The coordinates must be an iterable") := by
  refine ⟨rfl, fun h => ?_⟩
  have h' : Vector.init (.scalar 0) = .error (.typeError "The coordinates must be an iterable") := h
  rw [show Vector.init (.scalar 0) =
        .error (.valueError "The coordinates must be nonempty") from rfl] at h'
  exact PyErr.noConfusion (Except.error.inj h')

/-- C9 (amended): the constructor fails with the nonempty message for
every empty or absent input and for the falsy scalar 0; it fails with
the iterable message for every nonzero scalar; and it succeeds on every
nonempty sequence of decimal-convertible values. -/
theorem init_validation :
    (Vector.init .noneInput = .error (.valueError "The coordinates must be nonempty")) ∧
    (Vector.init (.seq []) = .error (.valueError "The coordinates must be nonempty")) ∧
    (∀ n : ℤ, n ≠ 0 →
      Vector.init (.scalar n) = .error (.typeError "The coordinates must be an iterable")) ∧
    (Vector.init (.scalar 0) = .error (.valueError "The coordinates must be nonempty")) ∧
    (∀ xs : List ℝ, xs ≠ [] → Vector.init (.seq xs) = .ok ⟨xs, xs.length⟩) := by
  refine ⟨rfl, rfl, ?_, rfl, fun xs h => init_seq_ok xs h⟩
  intro n hn
  unfold Vector.init truthy
  simp [hn]

/-- C9 witness: the amended behavior at concrete inputs. -/
theorem init_validation_witness :
    Vector.init (.scalar 5) = .error (.typeError "The coordinates must be an iterable") ∧
      Vector.init (.seq [1]) = .ok ⟨[1], 1⟩ :=
  ⟨init_validation.2.2.1 5 (by decide), init_validation.2.2.2.2 [1] (by simp)⟩

/-! ### C4 -/

/-- C4: `normalized` raises `ZeroVectorError` with the cannot-normalize
message exactly when the magnitude is zero, and otherwise returns
`times_scalar(1/magnitude)`. -/
theorem normalized_spec :
    ∀ v : Vector,
      (v.normalized = .error (.exception "Cannot normalize the zero vector") ↔
        v.magnitude = 0) ∧
      (v.magnitude ≠ 0 → v.normalized = v.times_scalar (1 / v.magnitude)) := by
  intro v
  constructor
  · constructor
    · intro h
      by_contra hm
      rw [normalized_ok v hm] at h
      exact absurd h (by simp)
    · intro h
      exact normalized_zero v h
  · intro hm
    unfold Vector.normalized
    rw [if_neg hm]

/-- C4 witness: the zero vector `[0,0]` raises, and `[3,4]` returns the
scaled vector. -/
theorem normalized_spec_witness :
    Vector.normalized ⟨[0, 0], 2⟩ = .error (.exception "Cannot normalize the zero vector") ∧
      Vector.normalized ⟨[3, 4], 2⟩ =
        Vector.times_scalar ⟨[3, 4], 2⟩ (1 / Vector.magnitude ⟨[3, 4], 2⟩) := by
  constructor
  · exact (normalized_spec ⟨[0, 0], 2⟩).1.mpr (by rw [magnitude_eq_zero_iff]; norm_num)
  · exact (normalized_spec ⟨[3, 4], 2⟩).2 (by rw [Ne, magnitude_eq_zero_iff]; norm_num)

/-! ### C6 -/

/-- C6: when either operand has magnitude exactly zero, `angle_with`
raises the re-signaled message "Cannot compute an angle with the zero
vector" (not the normalization message). -/
theorem angle_with_zero_vector_raises :
    ∀ (v w : Vector) (d : Bool), v.magnitude = 0 ∨ w.magnitude = 0 →
      v.angle_with w d = .error (.exception "Cannot compute an angle with the zero vector") := by
  intro v w d h
  have hbody : Vector.angleBody v w d = .error (.exception CANNOT_NORMALIZE_ZERO_VECTOR_MSG) := by
    by_cases hv : v.magnitude = 0
    · unfold Vector.angleBody
      rw [normalized_zero v hv]
      rfl
    · have hw : w.magnitude = 0 := h.resolve_left hv
      unfold Vector.angleBody
      rw [normalized_ok v hv, normalized_zero w hw]
      rfl
  unfold Vector.angle_with
  rw [hbody]
  rfl

/-- C6 witness: `Vector([1,0]).angle_with(Vector([0,0]))` raises the
angle-specific zero-vector message. -/
theorem angle_with_zero_vector_raises_witness :
    Vector.angle_with ⟨[1, 0], 2⟩ ⟨[0, 0], 2⟩ false =
      .error (.exception "Cannot compute an angle with the zero vector") :=
  angle_with_zero_vector_raises ⟨[1, 0], 2⟩ ⟨[0, 0], 2⟩ false
    (Or.inr (by rw [magnitude_eq_zero_iff]; norm_num))

/-! ### C7 -/

/-- C7: with a zero-magnitude basis, both `component_parallel_to` and
`component_orthogonal_to` raise `NoUniqueComponentError` with the same
orthogonal-component message. -/
theorem component_zero_basis_raises :
    ∀ v basis : Vector, basis.magnitude = 0 →
      v.component_parallel_to basis =
        .error (.exception "No unique orthogonal component exists") ∧
      v.component_orthogonal_to basis =
        .error (.exception "No unique orthogonal component exists") := by
  intro v basis h
  have hcp : Vector.cpBody v basis = .error (.exception CANNOT_NORMALIZE_ZERO_VECTOR_MSG) := by
    unfold Vector.cpBody
    rw [normalized_zero basis h]
    rfl
  have h1 : v.component_parallel_to basis =
      .error (.exception NO_UNIQUE_ORTHOGONAL_COMPONENT_MSG) := by
    unfold Vector.component_parallel_to
    rw [hcp]
    rfl
  have hco : Vector.coBody v basis =
      .error (.exception NO_UNIQUE_ORTHOGONAL_COMPONENT_MSG) := by
    unfold Vector.coBody
    rw [h1]
    rfl
  refine ⟨h1, ?_⟩
  unfold Vector.component_orthogonal_to
  rw [hco]
  rfl

/-- C7 witness: decomposing `[1,2]` against the zero basis `[0,0]`
raises the orthogonal-component message in both operations. -/
theorem component_zero_basis_raises_witness :
    Vector.component_parallel_to ⟨[1, 2], 2⟩ ⟨[0, 0], 2⟩ =
        .error (.exception "No unique orthogonal component exists") ∧
      Vector.component_orthogonal_to ⟨[1, 2], 2⟩ ⟨[0, 0], 2⟩ =
        .error (.exception "No unique orthogonal component exists") :=
  component_zero_basis_raises ⟨[1, 2], 2⟩ ⟨[0, 0], 2⟩
    (by rw [magnitude_eq_zero_iff]; norm_num)

/-! ### C8 -/

/-- `zipWith` only consumes the overlapping prefix of its operands. -/
lemma zipWith_eq_take_min {f : ℝ → ℝ → ℝ} (xs ys : List ℝ) :
    List.zipWith f xs ys =
      List.zipWith f (xs.take (min xs.length ys.length)) (ys.take (min xs.length ys.length)) := by
  have h : List.take (min xs.length ys.length) (List.zipWith f xs ys) =
      List.zipWith f xs ys :=
    List.take_of_length_le (by rw [List.length_zipWith])
  rw [List.take_zipWith] at h
  exact h.symm

/-- `zipWith` of two nonempty lists is nonempty. -/
lemma zipWith_ne_nil {f : ℝ → ℝ → ℝ} (xs ys : List ℝ) (hx : xs ≠ []) (hy : ys ≠ []) :
    List.zipWith f xs ys ≠ [] := by
  cases xs with
  | nil => exact absurd rfl hx
  | cons a as =>
      cases ys with
      | nil => exact absurd rfl hy
      | cons b bs => simp

/-- C8: `plus` and `minus` combine exactly the overlapping prefix of
length the shorter dimension, raising no error, and on the spec's
equal-dimension examples give `[4,6]` and `[-2,-2]`. -/
theorem plus_minus_overlapping_prefix :
    (∀ v w : Vector, v.coordinates ≠ [] → w.coordinates ≠ [] →
      ∃ u u' : Vector,
        v.plus w = .ok u ∧
        u.coordinates =
          List.zipWith (fun x y => x + y)
            (v.coordinates.take (min v.coordinates.length w.coordinates.length))
            (w.coordinates.take (min v.coordinates.length w.coordinates.length)) ∧
        v.minus w = .ok u' ∧
        u'.coordinates =
          List.zipWith (fun x y => x - y)
            (v.coordinates.take (min v.coordinates.length w.coordinates.length))
            (w.coordinates.take (min v.coordinates.length w.coordinates.length))) ∧
    Vector.plus ⟨[1, 2], 2⟩ ⟨[3, 4], 2⟩ = .ok ⟨[4, 6], 2⟩ ∧
    Vector.minus ⟨[1, 2], 2⟩ ⟨[3, 4], 2⟩ = .ok ⟨[-2, -2], 2⟩ := by
  refine ⟨?_, ?_, ?_⟩
  · intro v w hv hw
    refine ⟨⟨List.zipWith (fun x y => x + y) v.coordinates w.coordinates,
              (List.zipWith (fun x y => x + y) v.coordinates w.coordinates).length⟩,
            ⟨List.zipWith (fun x y => x - y) v.coordinates w.coordinates,
              (List.zipWith (fun x y => x - y) v.coordinates w.coordinates).length⟩,
            ?_, ?_, ?_, ?_⟩
    · unfold Vector.plus
      exact init_seq_ok _ (zipWith_ne_nil _ _ hv hw)
    · exact zipWith_eq_take_min v.coordinates w.coordinates
    · unfold Vector.minus
      exact init_seq_ok _ (zipWith_ne_nil _ _ hv hw)
    · exact zipWith_eq_take_min v.coordinates w.coordinates
  · show Except.ok (Vector.mk [(1:ℝ)+3, 2+4] 2) = Except.ok (Vector.mk [4, 6] 2)
    norm_num
  · show Except.ok (Vector.mk [(1:ℝ)-3, 2-4] 2) = Except.ok (Vector.mk [-2, -2] 2)
    norm_num

/-- C8 witness: the general prefix statement applied to the
mixed-dimension pair `[1,2,7]` and `[3,4]`. -/
theorem plus_minus_overlapping_prefix_witness :
    ∃ u u' : Vector,
      Vector.plus ⟨[1, 2, 7], 3⟩ ⟨[3, 4], 2⟩ = .ok u ∧
      u.coordinates =
        List.zipWith (fun x y => x + y)
          (([1, 2, 7] : List ℝ).take (min ([1, 2, 7] : List ℝ).length ([3, 4] : List ℝ).length))
          (([3, 4] : List ℝ).take (min ([1, 2, 7] : List ℝ).length ([3, 4] : List ℝ).length)) ∧
      Vector.minus ⟨[1, 2, 7], 3⟩ ⟨[3, 4], 2⟩ = .ok u' ∧
      u'.coordinates =
        List.zipWith (fun x y => x - y)
          (([1, 2, 7] : List ℝ).take (min ([1, 2, 7] : List ℝ).length ([3, 4] : List ℝ).length))
          (([3, 4] : List ℝ).take (min ([1, 2, 7] : List ℝ).length ([3, 4] : List ℝ).length)) :=
  plus_minus_overlapping_prefix.1 ⟨[1, 2, 7], 3⟩ ⟨[3, 4], 2⟩ (by simp) (by simp)

/-! ### C10 -/

/-- Splitting a successful `Except` bind into its two successful steps. -/
lemma except_bind_ok {α β : Type} (a : Except PyErr α) (f : α → Except PyErr β) (b : β)
    (h : a >>= f = .ok b) : ∃ x, a = .ok x ∧ f x = .ok b := by
  cases a with
  | error e => exact absurd h (by simp [Bind.bind, Except.bind])
  | ok x => exact ⟨x, rfl, by simpa [Bind.bind, Except.bind] using h⟩

/-- A successful `component_parallel_to` comes from a successful body. -/
lemma component_parallel_ok (v b : Vector) (u : Vector)
    (h : v.component_parallel_to b = .ok u) : Vector.cpBody v b = .ok u := by
  unfold Vector.component_parallel_to at h
  cases hb : Vector.cpBody v b with
  | error e =>
      rw [hb] at h
      dsimp at h
      split at h <;> simp_all
  | ok x =>
      rw [hb] at h
      dsimp at h
      exact h

/-- A successful `component_orthogonal_to` comes from a successful body. -/
lemma component_orthogonal_ok (v b : Vector) (u : Vector)
    (h : v.component_orthogonal_to b = .ok u) : Vector.coBody v b = .ok u := by
  unfold Vector.component_orthogonal_to at h
  cases hb : Vector.coBody v b with
  | error e =>
      rw [hb] at h
      dsimp at h
      split at h <;> simp_all
  | ok x =>
      rw [hb] at h
      dsimp at h
      exact h

/-- A successful `cross_product` comes from a successful body. -/
lemma cross_product_ok (v w : Vector) (u : Vector)
    (h : v.cross_product w = .ok u) : Vector.crossBody v w = .ok u := by
  unfold Vector.cross_product at h
  cases hb : Vector.crossBody v w with
  | error e =>
      rw [hb] at h
      cases e <;> dsimp at h
      · split at h <;> simp_all
      · exact absurd h (by simp)
      · exact absurd h (by simp)
  | ok x =>
      rw [hb] at h
      exact h

/-- C10: every vector a successful operation returns re-establishes the
construction invariant: its dimension equals its coordinate count and is
at least 1 (operand immutability is inherent in the functional model). -/
theorem returned_vectors_reestablish_invariant :
    (∀ v w u : Vector, v.plus w = .ok u →
      u.dimension = u.coordinates.length ∧ 1 ≤ u.dimension) ∧
    (∀ v w u : Vector, v.minus w = .ok u →
      u.dimension = u.coordinates.length ∧ 1 ≤ u.dimension) ∧
    (∀ (v : Vector) (k : ℝ) (u : Vector), v.times_scalar k = .ok u →
      u.dimension = u.coordinates.length ∧ 1 ≤ u.dimension) ∧
    (∀ v u : Vector, v.normalized = .ok u →
      u.dimension = u.coordinates.length ∧ 1 ≤ u.dimension) ∧
    (∀ v b u : Vector, v.component_parallel_to b = .ok u →
      u.dimension = u.coordinates.length ∧ 1 ≤ u.dimension) ∧
    (∀ v b u : Vector, v.component_orthogonal_to b = .ok u →
      u.dimension = u.coordinates.length ∧ 1 ≤ u.dimension) ∧
    (∀ v w u : Vector, v.cross_product w = .ok u →
      u.dimension = u.coordinates.length ∧ 1 ≤ u.dimension) := by
  have hts : ∀ (v : Vector) (k : ℝ) (u : Vector), v.times_scalar k = .ok u →
      u.dimension = u.coordinates.length ∧ 1 ≤ u.dimension := by
    intro v k u h
    exact init_ok_invariant _ _ h
  refine ⟨?_, ?_, hts, ?_, ?_, ?_, ?_⟩
  · intro v w u h
    exact init_ok_invariant _ _ h
  · intro v w u h
    exact init_ok_invariant _ _ h
  · intro v u h
    unfold Vector.normalized at h
    by_cases hm : v.magnitude = 0
    · rw [if_pos hm] at h
      exact absurd h (by simp)
    · rw [if_neg hm] at h
      exact hts _ _ _ h
  · intro v b u h
    have hb := component_parallel_ok v b u h
    unfold Vector.cpBody at hb
    obtain ⟨x, _, hx⟩ := except_bind_ok _ _ _ hb
    exact hts _ _ _ hx
  · intro v b u h
    have hb := component_orthogonal_ok v b u h
    unfold Vector.coBody at hb
    obtain ⟨x, _, hx⟩ := except_bind_ok _ _ _ hb
    exact init_ok_invariant _ _ hx
  · intro v w u h
    have hb := cross_product_ok v w u h
    unfold Vector.crossBody at hb
    obtain ⟨x, _, hx⟩ := except_bind_ok _ _ _ hb
    obtain ⟨y, _, hy⟩ := except_bind_ok _ _ _ hx
    exact init_ok_invariant _ _ hy

/-- C10 witness: the invariant on the concrete sum `[1,2] + [3,4]`. -/
theorem returned_vectors_reestablish_invariant_witness :
    (Vector.mk [(1:ℝ)+3, 2+4] 2).dimension =
        (Vector.mk [(1:ℝ)+3, 2+4] 2).coordinates.length ∧
      1 ≤ (Vector.mk [(1:ℝ)+3, 2+4] 2).dimension :=
  returned_vectors_reestablish_invariant.1 ⟨[1, 2], 2⟩ ⟨[3, 4], 2⟩ _ rfl

/-! ### Angle machinery (C3, C5) -/

/-- When both normalizations succeed, `angleBody` is the fast-path /
arc-cosine conditional on the unit vectors. -/
lemma angleBody_ok (v w u1 u2 : Vector) (d : Bool)
    (h1 : v.normalized = .ok u1) (h2 : w.normalized = .ok u2) :
    Vector.angleBody v w d =
      if (List.zip u1.coordinates u2.coordinates).countP (fun p => decide (p.1 = p.2)) =
          u1.coordinates.length then
        .ok 0
      else if d then
        .ok (Real.arccos (u1.dot u2) * (180 / Real.pi))
      else
        .ok (Real.arccos (u1.dot u2)) := by
  unfold Vector.angleBody
  rw [h1, h2]
  rfl

/-- A successful `angleBody` passes through the exception handler. -/
lemma angle_with_ok (v w : Vector) (d : Bool) (x : ℝ)
    (h : Vector.angleBody v w d = .ok x) : v.angle_with w d = .ok x := by
  unfold Vector.angle_with
  rw [h]

/-- Every pair drawn from a list zipped with itself is diagonal. -/
lemma mem_zip_self : ∀ (xs : List ℝ) (p : ℝ × ℝ), p ∈ List.zip xs xs → p.1 = p.2 := by
  intro xs
  induction xs with
  | nil => intro p hp; simp at hp
  | cons a as ih =>
      intro p hp
      rw [List.zip_cons_cons, List.mem_cons] at hp
      rcases hp with h | h
      · rw [h]
      · exact ih p h

/-- The equal-pair count of a list zipped with itself is its length. -/
lemma countP_zip_self (xs : List ℝ) :
    (List.zip xs xs).countP (fun p => decide (p.1 = p.2)) = xs.length := by
  have hall : ∀ p ∈ List.zip xs xs, (fun p : ℝ × ℝ => decide (p.1 = p.2)) p = true := by
    intro p hp
    exact decide_eq_true (mem_zip_self xs p hp)
  rw [List.countP_eq_length.mpr hall, List.length_zip, min_self]

/-- The exact-match fast path: equal unit-vector coordinates make
`angle_with` return 0 (for either unit setting). -/
lemma angle_with_fast (v w u1 u2 : Vector) (d : Bool) (h1 : v.normalized = .ok u1)
    (h2 : w.normalized = .ok u2) (heq : u1.coordinates = u2.coordinates) :
    v.angle_with w d = .ok 0 := by
  apply angle_with_ok
  have hcond : (List.zip u1.coordinates u2.coordinates).countP (fun p => decide (p.1 = p.2)) =
      u1.coordinates.length := by
    rw [heq]
    exact countP_zip_self u2.coordinates
  rw [angleBody_ok v w u1 u2 d h1 h2, if_pos hcond]

/-- Inverting a successful `init` on a sequence. -/
lemma init_seq_ok_inv (xs : List ℝ) (u : Vector) (h : Vector.init (.seq xs) = .ok u) :
    u = ⟨xs, xs.length⟩ := by
  unfold Vector.init at h
  by_cases ht : truthy (.seq xs) = true
  · rw [if_pos ht] at h
    exact (Except.ok.inj h).symm
  · rw [if_neg ht] at h
    exact absurd h (by simp)

/-- Inverting a successful normalization: nonzero magnitude and scaled
coordinates. -/
lemma normalized_ok_inv (v u : Vector) (h : v.normalized = .ok u) :
    v.magnitude ≠ 0 ∧ u.coordinates = v.coordinates.map (fun x => (1 / v.magnitude) * x) := by
  unfold Vector.normalized at h
  by_cases hm : v.magnitude = 0
  · rw [if_pos hm] at h
    exact absurd h (by simp)
  · rw [if_neg hm] at h
    unfold Vector.times_scalar at h
    refine ⟨hm, ?_⟩
    rw [init_seq_ok_inv _ _ h]

/-- Squared sum scales quadratically under coordinatewise scaling. -/
lemma sumSq_map_mul (k : ℝ) (xs : List ℝ) :
    ((xs.map (fun x => k * x)).map (fun x => x ^ 2)).sum =
      k ^ 2 * (xs.map (fun x => x ^ 2)).sum := by
  induction xs with
  | nil => simp
  | cons a as ih =>
      simp only [List.map_cons, List.sum_cons, ih]
      ring

/-- A successfully normalized vector is a unit vector: its squared
coordinates sum to 1. -/
lemma normalized_unit (v u : Vector) (h : v.normalized = .ok u) :
    (u.coordinates.map (fun x => x ^ 2)).sum = 1 := by
  obtain ⟨hm, hc⟩ := normalized_ok_inv v u h
  rw [hc, sumSq_map_mul]
  have hS : (v.coordinates.map (fun x => x ^ 2)).sum = v.magnitude ^ 2 := by
    unfold Vector.magnitude
    rw [Real.sq_sqrt (sumSq_nonneg v)]
  rw [hS]
  field_simp

/-- When the shorter list is a pointwise-equal prefix of the longer, the
zipped product sum is the shorter list's squared sum. -/
lemma dot_eq_sumSq_of_zip_eq : ∀ (xs ys : List ℝ), xs.length ≤ ys.length →
    (∀ p ∈ List.zip xs ys, p.1 = p.2) →
    (List.zipWith (fun x y => x * y) xs ys).sum = (xs.map (fun x => x ^ 2)).sum := by
  intro xs
  induction xs with
  | nil => intro ys _ _; simp
  | cons a as ih =>
      intro ys hlen hall
      cases ys with
      | nil => simp at hlen
      | cons b bs =>
          have hab : a = b :=
            hall (a, b) (by rw [List.zip_cons_cons]; exact List.mem_cons_self _ _)
          have htail : ∀ p ∈ List.zip as bs, p.1 = p.2 := by
            intro p hp
            exact hall p (by rw [List.zip_cons_cons]; exact List.mem_cons_of_mem _ hp)
          have hlen' : as.length ≤ bs.length := by simpa using hlen
          simp only [List.zipWith_cons_cons, List.map_cons, List.sum_cons]
          rw [ih bs hlen' htail, ← hab]
          ring

/-- `normalized` evaluated through a computed magnitude. -/
lemma normalized_concrete (v : Vector) (m : ℝ) (hm : v.magnitude = m) (hm0 : m ≠ 0) :
    v.normalized = .ok ⟨v.coordinates.map (fun x => (1 / m) * x), v.coordinates.length⟩ := by
  have h := normalized_ok v (by rw [hm]; exact hm0)
  rw [hm] at h
  exact h

/-- The square root of 4. -/
lemma sqrt_four : Real.sqrt 4 = 2 := by
  rw [show (4 : ℝ) = 2 ^ 2 by norm_num, Real.sqrt_sq (by norm_num : (0:ℝ) ≤ 2)]

/-! ### C5 -/

/-- C5: for operands that normalize successfully, exactly equal unit
coordinates short-circuit `angle_with` to 0 (whatever the unit), and
otherwise `angle_with` returns `acos(dot(u1,u2))` in radians, times
`180/pi` in degrees; in particular `[1,0]` against itself gives 0. -/
theorem angle_with_fast_path_spec :
    (∀ v w u1 u2 : Vector,
      v.normalized = .ok u1 → w.normalized = .ok u2 →
      (u1.coordinates = u2.coordinates → ∀ d : Bool, v.angle_with w d = .ok 0) ∧
      (u1.coordinates ≠ u2.coordinates →
        v.angle_with w false = .ok (Real.arccos (u1.dot u2)) ∧
        v.angle_with w true = .ok (Real.arccos (u1.dot u2) * (180 / Real.pi)))) ∧
    Vector.angle_with ⟨[1, 0], 2⟩ ⟨[1, 0], 2⟩ false = .ok 0 := by
  have hmain : ∀ v w u1 u2 : Vector,
      v.normalized = .ok u1 → w.normalized = .ok u2 →
      (u1.coordinates = u2.coordinates → ∀ d : Bool, v.angle_with w d = .ok 0) ∧
      (u1.coordinates ≠ u2.coordinates →
        v.angle_with w false = .ok (Real.arccos (u1.dot u2)) ∧
        v.angle_with w true = .ok (Real.arccos (u1.dot u2) * (180 / Real.pi))) := by
    intro v w u1 u2 h1 h2
    constructor
    · intro heq d
      exact angle_with_fast v w u1 u2 d h1 h2 heq
    · intro _
      by_cases hfast : (List.zip u1.coordinates u2.coordinates).countP
          (fun p => decide (p.1 = p.2)) = u1.coordinates.length
      · -- the source still fast-paths (a strict pointwise-equal prefix);
        -- its returned 0 coincides with acos(dot) because the dot of the
        -- unit vectors is then exactly 1
        have hlenle : u1.coordinates.length ≤ u2.coordinates.length := by
          have hc := List.countP_le_length
            (p := fun p : ℝ × ℝ => decide (p.1 = p.2))
            (l := List.zip u1.coordinates u2.coordinates)
          rw [hfast, List.length_zip] at hc
          exact (le_min_iff.mp hc).2
        have hlz : (List.zip u1.coordinates u2.coordinates).length =
            u1.coordinates.length := by
          rw [List.length_zip]
          exact min_eq_left hlenle
        have hall : ∀ p ∈ List.zip u1.coordinates u2.coordinates, p.1 = p.2 := by
          have hmem := List.countP_eq_length.mp (hfast.trans hlz.symm)
          intro p hp
          exact of_decide_eq_true (hmem p hp)
        have hd : u1.dot u2 = 1 := by
          unfold Vector.dot
          rw [dot_eq_sumSq_of_zip_eq u1.coordinates u2.coordinates hlenle hall]
          exact normalized_unit w u2 h2 ▸ normalized_unit v u1 h1
        constructor
        · have := angle_with_ok v w false 0
            (by rw [angleBody_ok v w u1 u2 false h1 h2, if_pos hfast])
          rw [this, hd, Real.arccos_one]
        · have := angle_with_ok v w true 0
            (by rw [angleBody_ok v w u1 u2 true h1 h2, if_pos hfast])
          rw [this, hd, Real.arccos_one, zero_mul]
      · constructor
        · apply angle_with_ok
          rw [angleBody_ok v w u1 u2 false h1 h2, if_neg hfast]
          rfl
        · apply angle_with_ok
          rw [angleBody_ok v w u1 u2 true h1 h2, if_neg hfast]
          rfl
  refine ⟨hmain, ?_⟩
  have hm : Vector.magnitude ⟨[1, 0], 2⟩ = 1 := by
    simp [Vector.magnitude]
  have h1 := normalized_concrete ⟨[1, 0], 2⟩ 1 hm one_ne_zero
  exact (hmain _ _ _ _ h1 h1).1 rfl false

/-- C5 witness: distinct but exactly-aligned operands `[1,0]` and
`[2,0]` hit the fast path through the general statement. -/
theorem angle_with_fast_path_spec_witness :
    Vector.angle_with ⟨[1, 0], 2⟩ ⟨[2, 0], 2⟩ false = .ok 0 := by
  have hm1 : Vector.magnitude ⟨[1, 0], 2⟩ = 1 := by
    simp [Vector.magnitude]
  have hm2 : Vector.magnitude ⟨[2, 0], 2⟩ = 2 := by
    simp only [Vector.magnitude]
    rw [show (([2, 0] : List ℝ).map (fun x => x ^ 2)).sum = 4 by norm_num]
    exact sqrt_four
  have h1 := normalized_concrete ⟨[1, 0], 2⟩ 1 hm1 one_ne_zero
  have h2 := normalized_concrete ⟨[2, 0], 2⟩ 2 hm2 two_ne_zero
  refine (angle_with_fast_path_spec.1 _ _ _ _ h1 h2).1 ?_ false
  norm_num

/-! ### C3 -/

/-- C3: `is_parallel_to` holds exactly when either operand's magnitude
is below the 1e-10 tolerance or the angle is exactly 0 or exactly pi;
in particular `[1,1]` is parallel to `[2,2]`. -/
theorem is_parallel_spec :
    (∀ v w : Vector, v.is_parallel_to w ↔
      (v.magnitude < 1e-10 ∨ w.magnitude < 1e-10 ∨
        v.angle_with w false = .ok 0 ∨ v.angle_with w false = .ok Real.pi)) ∧
    Vector.is_parallel_to ⟨[1, 1], 2⟩ ⟨[2, 2], 2⟩ := by
  constructor
  · intro v w
    exact Iff.rfl
  · right; right; left
    have hs2 : Real.sqrt 2 ≠ 0 := Real.sqrt_ne_zero'.mpr (by norm_num)
    have hm1 : Vector.magnitude ⟨[1, 1], 2⟩ = Real.sqrt 2 := by
      simp only [Vector.magnitude]
      norm_num
    have hm2 : Vector.magnitude ⟨[2, 2], 2⟩ = Real.sqrt 8 := by
      simp only [Vector.magnitude]
      norm_num
    have hs8 : Real.sqrt 8 = 2 * Real.sqrt 2 := by
      rw [show (8 : ℝ) = 4 * 2 by norm_num, Real.sqrt_mul (by norm_num : (0:ℝ) ≤ 4), sqrt_four]
    have h1 := normalized_concrete ⟨[1, 1], 2⟩ (Real.sqrt 2) hm1 hs2
    have h2 := normalized_concrete ⟨[2, 2], 2⟩ (Real.sqrt 8) hm2 (by rw [hs8]; positivity)
    refine angle_with_fast _ _ _ _ false h1 h2 ?_
    show ([1, 1] : List ℝ).map (fun x => (1 / Real.sqrt 2) * x) =
      ([2, 2] : List ℝ).map (fun x => (1 / Real.sqrt 8) * x)
    rw [hs8]
    have : (1 / Real.sqrt 2) * (1 : ℝ) = (1 / (2 * Real.sqrt 2)) * 2 := by
      field_simp
    simp only [List.map_cons, List.map_nil]
    rw [this]

/-- C3 witness: the characterization applied to a zero second operand. -/
theorem is_parallel_spec_witness :
    Vector.is_parallel_to ⟨[1, 0], 2⟩ ⟨[0, 0], 2⟩ := by
  refine (is_parallel_spec.1 ⟨[1, 0], 2⟩ ⟨[0, 0], 2⟩).mpr (Or.inr (Or.inl ?_))
  have hm : Vector.magnitude ⟨[0, 0], 2⟩ = 0 := by
    rw [magnitude_eq_zero_iff]
    norm_num
  rw [hm]
  norm_num

end

end LinAlg
